import Mathlib

/-!
Verification of the OKS (Object Keypoint Similarity) evaluation script
`src/oks_eval.py` of the PoseComposer repository.

The script is shallowly embedded over the real numbers:

* a NumPy `[K, 2]` keypoint array becomes a `List (ℝ × ℝ)`;
* a NumPy 1-D float array becomes a `List ℝ`;
* NumPy's machine epsilon `np.finfo(float).eps` is the constant `eps = 2⁻⁵²`;
* a raised Python exception (failed `assert`, NumPy broadcasting
  `ValueError`, indexing/`np.max` on an empty array, a failing extractor)
  is modelled as `none` / `Except.error ()`;
* `np.mean` of an empty array yields NaN, modelled as `none` as well
  (inside the batch loop an empty mean is unreachable, so the two
  readings of `none` never mix there);
* the module-level batch loop becomes `runBatch`, parameterised over the
  file listing, the candidate-existence test and the external OpenPose
  extractor, which are I/O.

Floating-point rounding is abstracted away: arithmetic is exact real
arithmetic, which is the reading the specification itself uses.
-/

namespace OksEval

noncomputable section

/-- Machine epsilon `np.finfo(float).eps` of a 64-bit float. -/
def eps : ℝ := 1 / 2 ^ 52

/-- A keypoint is a 2-D location, one row of a `[K, 2]` NumPy array. -/
abbrev Keypoint := ℝ × ℝ

/-- Squared Euclidean distance of two keypoints: one entry of
`np.sum((pred_keypoints - gt_keypoints) ** 2, axis=1)`. -/
def sqDist (p g : Keypoint) : ℝ := (p.1 - g.1) ^ 2 + (p.2 - g.2) ^ 2

/-- NumPy 1-D broadcasting of a binary elementwise operation: equal
lengths act pointwise, a length-1 operand is stretched to the other
operand, and any other length combination raises a `ValueError`
(modelled `none`). -/
def broadcast2 (f : ℝ → ℝ → ℝ) (xs ys : List ℝ) : Option (List ℝ) :=
  if xs.length = ys.length then some (List.zipWith f xs ys)
  else if xs.length = 1 then some (ys.map (f xs.headI))
  else if ys.length = 1 then some (xs.map (fun x => f x ys.headI))
  else none

/-- Embedding of `np.mean` of a 1-D array: NaN on an empty array (modelled `none`),
otherwise the sum divided by the length. -/
def npMean (l : List ℝ) : Option ℝ :=
  if l.isEmpty then none else some (l.sum / l.length)

/-- Embedding of `calculate_oks(pred_keypoints, gt_keypoints, sigmas,
bbox_area)` (src/oks_eval.py lines 14-32).

The Python `assert pred_keypoints.shape == gt_keypoints.shape` raises
on a length disagreement between the two keypoint arrays (`none`); the
sigma array's length is not checked there.  Then
`dists = np.sum((pred - gt) ** 2, axis=1)`,
`variances = (2 * (sigmas ** 2)) * (bbox_area + np.finfo(float).eps)`,
`oks_scores = np.exp(-dists / variances)` (the division broadcasts the
two 1-D arrays), and the result is `np.mean(oks_scores)`. -/
def calculate_oks (pred_keypoints gt_keypoints : List Keypoint)
    (sigmas : List ℝ) (bbox_area : ℝ) : Option ℝ :=
  if pred_keypoints.length = gt_keypoints.length then
    let dists := List.zipWith sqDist pred_keypoints gt_keypoints
    let variances := sigmas.map (fun s => (2 * s ^ 2) * (bbox_area + eps))
    match broadcast2 (fun d v => -d / v) dists variances with
    | none => none
    | some rs => npMean (rs.map Real.exp)
  else none

/-- Embedding of the keypoint-conversion loop of `extract_pose`
(src/oks_eval.py lines 45-50): the detector's output is an ordered
sequence of optional points, and the loop appends `[point[0], point[1]]`
only when `point is not None`, i.e. it filters the undetected joints
out. -/
def extract_pose (detected : List (Option Keypoint)) : List Keypoint :=
  detected.filterMap id

/-- The COCO sigma table of src/oks_eval.py lines 57-58. -/
def sigmas : List ℝ :=
  [0.26, 0.25, 0.25, 0.35, 0.35, 0.79, 0.79, 0.72, 0.72,
   0.62, 0.62, 1.07, 1.07, 0.87, 0.87, 0.89, 0.89]

/-- Embedding of the bounding-box normalization area
`(np.max(gt[:, 0]) - np.min(gt[:, 0])) * (np.max(gt[:, 1]) - np.min(gt[:, 1]))`
(src/oks_eval.py lines 76-77).  On an empty keypoint
array (NumPy shape `(0,)`) the column indexing `gt_keypoints[:, 0]`
raises, modelled `Except.error ()`. -/
def bboxArea (kps : List Keypoint) : Except Unit ℝ :=
  match kps with
  | [] => .error ()
  | k :: ks =>
      .ok (((ks.map Prod.fst).foldl max k.1 - (ks.map Prod.fst).foldl min k.1) *
           ((ks.map Prod.snd).foldl max k.2 - (ks.map Prod.snd).foldl min k.2))

/-- The I/O environment of the module-level batch loop: whether the
candidate file for a reference entry exists
(`os.path.exists(os.path.join(generated_images_folder, stem + ".png"))`),
and the external OpenPose extractor applied to the reference and to the
candidate image of an entry.  An extractor failure (unreadable image,
detector exception) is `Except.error ()`. -/
structure BatchEnv where
  hasCand : String → Bool
  extractGt : String → Except Unit (List (Option Keypoint))
  extractCand : String → Except Unit (List (Option Keypoint))

/-- Embedding of the module-level batch loop (src/oks_eval.py lines
61-83) over the sorted listing `files` of the ground-truth folder.  A
missing candidate prints a message and `continue`s, recording nothing.
Every exception raised while a pair is processed propagates and aborts
the whole loop (`Except.error ()`); there is no try/except.  On success
the collected `oks_scores` list is returned, in reference order. -/
def runBatch (env : BatchEnv) (sig : List ℝ) : List String → Except Unit (List ℝ)
  | [] => .ok []
  | f :: rest =>
    if env.hasCand f then
      match env.extractGt f with
      | .error e => .error e
      | .ok gtRaw =>
        match env.extractCand f with
        | .error e => .error e
        | .ok predRaw =>
          match bboxArea (extract_pose gtRaw) with
          | .error e => .error e
          | .ok area =>
            match calculate_oks (extract_pose predRaw) (extract_pose gtRaw) sig area with
            | none => .error ()
            | some s =>
              match runBatch env sig rest with
              | .error e => .error e
              | .ok tail => .ok (s :: tail)
    else runBatch env sig rest

/-- Specification-side OKS score, written from the specification's
words alone: the arithmetic mean over all indices `i` of
`exp(-d_i / v_i)` with `d_i` the squared Euclidean distance of the
`i`-th predicted and reference keypoints and
`v_i = 2 * sigmas[i]² * (area + ε)`. -/
def oksSpec (pred_keypoints gt_keypoints : List Keypoint)
    (sig : List ℝ) (area : ℝ) : ℝ :=
  (∑ i in Finset.range pred_keypoints.length,
      Real.exp (-(sqDist (pred_keypoints.getD i (0, 0)) (gt_keypoints.getD i (0, 0))) /
        (2 * (sig.getD i 0) ^ 2 * (area + eps)))) /
    pred_keypoints.length

lemma eps_pos : (0 : ℝ) < eps := by
  unfold eps; positivity

lemma sum_eq_sum_range_getD (l : List ℝ) :
    l.sum = ∑ i in Finset.range l.length, l.getD i 0 := by
  induction l with
  | nil => simp
  | cons x xs ih =>
      rw [List.sum_cons, List.length_cons, Finset.sum_range_succ']
      simp [ih, add_comm]

lemma length_zipWith_sqDist (pred gt : List Keypoint) (h : pred.length = gt.length) :
    (List.zipWith sqDist pred gt).length = pred.length := by
  simp [List.length_zipWith, h]

lemma calculate_oks_eq_oksSpec (pred gt : List Keypoint) (sig : List ℝ) (area : ℝ)
    (hpg : pred.length = gt.length) (hs : sig.length = pred.length)
    (hne : pred ≠ []) :
    calculate_oks pred gt sig area = some (oksSpec pred gt sig area) := by
  have hd : (List.zipWith sqDist pred gt).length = pred.length :=
    length_zipWith_sqDist pred gt hpg
  have hv : (sig.map fun s => (2 * s ^ 2) * (area + eps)).length = pred.length := by
    simp [hs]
  have hK : 0 < pred.length := List.length_pos.mpr hne
  simp only [calculate_oks, broadcast2]
  rw [if_pos hpg, if_pos (by rw [hd, hv])]
  show npMean ((List.zipWith (fun d v => -d / v) (List.zipWith sqDist pred gt)
      (sig.map fun s => (2 * s ^ 2) * (area + eps))).map Real.exp) =
    some (oksSpec pred gt sig area)
  rw [List.map_zipWith]
  have hlen : (List.zipWith (fun d v => Real.exp (-d / v))
      (List.zipWith sqDist pred gt)
      (sig.map fun s => (2 * s ^ 2) * (area + eps))).length = pred.length := by
    simp [List.length_zipWith, hd, hv]
  unfold npMean
  rw [if_neg (by rw [List.isEmpty_iff]; exact List.length_pos.mp (by rw [hlen]; exact hK))]
  unfold oksSpec
  congr 1
  rw [sum_eq_sum_range_getD, hlen]
  congr 1
  apply Finset.sum_congr rfl
  intro i hi
  have hiK : i < pred.length := Finset.mem_range.mp hi
  rw [List.getD_eq_getElem _ _ (by rw [hlen]; exact hiK)]
  rw [List.getElem_zipWith]
  rw [List.getElem_zipWith, List.getElem_map]
  rw [List.getD_eq_getElem pred (0,0) hiK,
      List.getD_eq_getElem gt (0,0) (hpg ▸ hiK),
      List.getD_eq_getElem sig 0 (hs ▸ hiK)]

/-- C1: for equal-length predicted and reference keypoint sequences, an
equal-length sequence of positive sigmas and a non-negative area,
`calculate_oks` returns the arithmetic mean over all indices `i` of
`exp(-d_i / v_i)`, where `d_i` is the squared Euclidean distance of the
`i`-th keypoints and `v_i = 2 * sigmas[i]² * (area + ε)` with `ε` the
machine epsilon. -/
theorem calculate_oks_mean_formula (pred gt : List Keypoint) (sig : List ℝ)
    (area : ℝ) (hpg : pred.length = gt.length) (hs : sig.length = pred.length)
    (hpos : ∀ s ∈ sig, 0 < s) (harea : 0 ≤ area) (hne : pred ≠ []) :
    calculate_oks pred gt sig area = some (oksSpec pred gt sig area) :=
  calculate_oks_eq_oksSpec pred gt sig area hpg hs hne

/-- Witness for C1 at a concrete input. -/
theorem calculate_oks_mean_formula_witness :
    calculate_oks [((0 : ℝ), (0 : ℝ))] [(3, 4)] [1] 1 =
      some (oksSpec [((0 : ℝ), (0 : ℝ))] [(3, 4)] [1] 1) :=
  calculate_oks_mean_formula [(0, 0)] [(3, 4)] [1] 1 rfl rfl
    (by intro s hs; rw [List.mem_singleton] at hs; rw [hs]; norm_num)
    (by norm_num) (by simp)

/-- C8: with `K = 1`, `sigmas = [1]`, `area = 0`, `predicted = [(0, 0)]`,
`reference = [(1, 0)]`, the epsilon guard keeps the score well defined:
`calculate_oks` returns exactly `exp(-1 / (2 * 1 * ε))`, a positive
value, and raises no division error. -/
theorem epsilon_guard_edge_case :
    calculate_oks [((0 : ℝ), (0 : ℝ))] [(1, 0)] [1] 0 =
      some (Real.exp (-1 / (2 * 1 * eps))) ∧
    0 < Real.exp (-1 / (2 * 1 * eps)) := by
  constructor
  · simp only [calculate_oks, broadcast2, npMean]
    norm_num [sqDist]
  · exact Real.exp_pos _

lemma variance_pos (s area : ℝ) (hσ : 0 < s) (harea : 0 ≤ area) :
    0 < 2 * s ^ 2 * (area + eps) := by
  have := eps_pos
  positivity

/-- C9: on valid inputs (equal lengths, positive sigmas, non-negative
area) the score strictly decreases when a single squared keypoint
distance grows with everything else fixed, and it is exactly 1 when
predicted equals reference at every keypoint. -/
theorem oks_monotone_and_identity :
    (∀ (pred pred' gt : List Keypoint) (sig : List ℝ) (area : ℝ) (j : ℕ),
      pred.length = gt.length → pred'.length = gt.length →
      sig.length = gt.length → (∀ s ∈ sig, 0 < s) → 0 ≤ area →
      j < gt.length →
      (∀ k, k < gt.length → k ≠ j →
        sqDist (pred'.getD k (0, 0)) (gt.getD k (0, 0)) =
          sqDist (pred.getD k (0, 0)) (gt.getD k (0, 0))) →
      sqDist (pred.getD j (0, 0)) (gt.getD j (0, 0)) <
        sqDist (pred'.getD j (0, 0)) (gt.getD j (0, 0)) →
      ∃ s s', calculate_oks pred gt sig area = some s ∧
        calculate_oks pred' gt sig area = some s' ∧ s' < s) ∧
    (∀ (gt : List Keypoint) (sig : List ℝ) (area : ℝ),
      sig.length = gt.length → gt ≠ [] → (∀ s ∈ sig, 0 < s) → 0 ≤ area →
      calculate_oks gt gt sig area = some 1) := by
  constructor
  · intro pred pred' gt sig area j hpg hpg' hs hσ harea hj hother hjlt
    have hKpos : 0 < gt.length := Nat.lt_of_le_of_lt (Nat.zero_le j) hj
    have hne : pred ≠ [] := by
      rw [← List.length_pos, hpg]; exact hKpos
    have hne' : pred' ≠ [] := by
      rw [← List.length_pos, hpg']; exact hKpos
    refine ⟨oksSpec pred gt sig area, oksSpec pred' gt sig area,
      calculate_oks_eq_oksSpec pred gt sig area hpg (hs.trans hpg.symm) hne,
      calculate_oks_eq_oksSpec pred' gt sig area hpg' (hs.trans hpg'.symm) hne', ?_⟩
    unfold oksSpec
    rw [hpg, hpg']
    have hvpos : ∀ i, i < gt.length → 0 < 2 * (sig.getD i 0) ^ 2 * (area + eps) := by
      intro i hi
      refine variance_pos _ _ ?_ harea
      have hmem : sig.getD i 0 ∈ sig := by
        rw [List.getD_eq_getElem sig 0 (hs ▸ hi)]
        exact List.getElem_mem _
      exact hσ _ hmem
    have hKR : (0 : ℝ) < (gt.length : ℝ) := by exact_mod_cast hKpos
    refine (div_lt_div_iff_of_pos_right hKR).mpr ?_
    have hstrict :
        Real.exp (-(sqDist (pred'.getD j (0, 0)) (gt.getD j (0, 0))) /
            (2 * (sig.getD j 0) ^ 2 * (area + eps))) <
          Real.exp (-(sqDist (pred.getD j (0, 0)) (gt.getD j (0, 0))) /
            (2 * (sig.getD j 0) ^ 2 * (area + eps))) := by
      apply Real.exp_lt_exp.mpr
      rw [neg_div, neg_div]
      exact neg_lt_neg ((div_lt_div_iff_of_pos_right (hvpos j hj)).mpr hjlt)
    refine Finset.sum_lt_sum ?_ ⟨j, Finset.mem_range.mpr hj, hstrict⟩
    intro i hi
    rcases eq_or_ne i j with rfl | hij
    · exact le_of_lt hstrict
    · rw [hother i (Finset.mem_range.mp hi) hij]
  · intro gt sig area hs hne hσ harea
    rw [calculate_oks_eq_oksSpec gt gt sig area rfl (hs.trans rfl) hne]
    congr 1
    unfold oksSpec
    have h1 : ∀ i ∈ Finset.range gt.length,
        Real.exp (-(sqDist (gt.getD i (0, 0)) (gt.getD i (0, 0))) /
          (2 * (sig.getD i 0) ^ 2 * (area + eps))) = 1 := by
      intro i hi
      simp [sqDist]
    rw [Finset.sum_congr rfl h1, Finset.sum_const, Finset.card_range,
        nsmul_eq_mul, mul_one]
    exact div_self (by exact_mod_cast (List.length_pos.mpr hne).ne')

/-- Witness for C9 at concrete inputs: growing the single squared
distance from 0 to 1 strictly lowers the score, and identical keypoint
sets score exactly 1. -/
theorem oks_monotone_and_identity_witness :
    (∃ s s', calculate_oks [((0 : ℝ), (0 : ℝ))] [((0 : ℝ), (0 : ℝ))] [1] 1 = some s ∧
      calculate_oks [((1 : ℝ), (0 : ℝ))] [((0 : ℝ), (0 : ℝ))] [1] 1 = some s' ∧ s' < s) ∧
    calculate_oks [((0 : ℝ), (0 : ℝ))] [((0 : ℝ), (0 : ℝ))] [1] 1 = some 1 := by
  constructor
  · exact oks_monotone_and_identity.1 [(0, 0)] [(1, 0)] [(0, 0)] [1] 1 0 rfl rfl rfl
      (by intro s hs; rw [List.mem_singleton] at hs; rw [hs]; norm_num)
      (by norm_num) (by norm_num)
      (by intro k hk hne'; exact absurd (Nat.lt_one_iff.mp hk) hne')
      (by norm_num [sqDist])
  · exact oks_monotone_and_identity.2 [(0, 0)] [1] 1 rfl (by simp)
      (by intro s hs; rw [List.mem_singleton] at hs; rw [hs]; norm_num)
      (by norm_num)

/-- C10: `calculate_oks` is a pure observer: its result depends only on
the values of its four arguments, so two calls with equal inputs return
equal scores.  (The NumPy operations it performs, subtraction, squaring,
`np.sum`, `np.exp`, `np.mean`, all allocate fresh arrays and write to no
element of the inputs, which is why a functional embedding of the body
exists at all.) -/
theorem calculate_oks_deterministic
    (p g : List Keypoint) (s : List ℝ) (a : ℝ)
    (p' g' : List Keypoint) (s' : List ℝ) (a' : ℝ)
    (hp : p = p') (hg : g = g') (hs : s = s') (ha : a = a') :
    calculate_oks p g s a = calculate_oks p' g' s' a' := by
  rw [hp, hg, hs, ha]

/-- Witness for C10 at a concrete input. -/
theorem calculate_oks_deterministic_witness :
    calculate_oks [((1 : ℝ), 2)] [(3, 4)] [1] 5 =
      calculate_oks [((1 : ℝ), 2)] [(3, 4)] [1] 5 :=
  calculate_oks_deterministic [(1, 2)] [(3, 4)] [1] 5 [(1, 2)] [(3, 4)] [1] 5
    rfl rfl rfl rfl

/-- C6 counterexample: with `K = 1` keypoint sets and a 2-entry sigma
table, the sigma-length disagreement is not caught: the assert compares
only the two keypoint shapes, NumPy broadcasting stretches the length-1
distance array across the sigmas, and a score is returned silently. -/
theorem sigma_mismatch_silent_score_ce :
    (calculate_oks [((0 : ℝ), (0 : ℝ))] [(1, 0)] [1, 1] 1).isSome = true := by
  simp [calculate_oks, broadcast2, npMean, sqDist]

/-- C6 amended: the shape assertion of `calculate_oks` fires exactly on a
length disagreement between the two keypoint sets.  A disagreement that
involves only the sigma table is never reported as a shape mismatch: when
the lengths are broadcast-incompatible (neither the keypoint count nor
the sigma count is 1) the elementwise division fails instead, and
otherwise a score is returned silently. -/
theorem shape_check_only_pred_gt :
    (∀ (pred gt : List Keypoint) (sig : List ℝ) (a : ℝ),
      pred.length ≠ gt.length → calculate_oks pred gt sig a = none) ∧
    (∀ (pred gt : List Keypoint) (sig : List ℝ) (a : ℝ),
      pred.length = gt.length → pred.length ≠ 1 → sig.length ≠ 1 →
      sig.length ≠ pred.length → calculate_oks pred gt sig a = none) := by
  constructor
  · intro pred gt sig a h
    simp only [calculate_oks]
    rw [if_neg h]
  · intro pred gt sig a hpg hp1 hs1 hsp
    have hd : (List.zipWith sqDist pred gt).length = pred.length :=
      length_zipWith_sqDist pred gt hpg
    have hv : (sig.map fun s => (2 * s ^ 2) * (a + eps)).length = sig.length := by
      simp
    simp only [calculate_oks, broadcast2]
    rw [if_pos hpg, if_neg (by rw [hd, hv]; exact fun h => hsp h.symm),
        if_neg (by rw [hd]; exact hp1), if_neg (by rw [hv]; exact hs1)]

/-- Witness for the amended C6 at concrete inputs. -/
theorem shape_check_only_pred_gt_witness :
    calculate_oks [((0 : ℝ), (0 : ℝ))] [] [1] 0 = none ∧
    calculate_oks [((0 : ℝ), (0 : ℝ)), (0, 0)] [(0, 0), (0, 0)] [1, 1, 1] 0 = none := by
  constructor
  · exact shape_check_only_pred_gt.1 [(0, 0)] [] [1] 0 (by simp)
  · exact shape_check_only_pred_gt.2 [(0, 0), (0, 0)] [(0, 0), (0, 0)] [1, 1, 1] 0
      rfl (by simp) (by simp) (by simp)

/-- C5 counterexample: the conversion loop of `extract_pose` drops an
undetected joint instead of keeping an absent entry at its index: a
2-joint detection with one missing joint yields a 1-element KeypointSet,
so the fixed length and the index alignment are lost. -/
theorem extract_pose_drops_absent_ce :
    extract_pose [some ((1 : ℝ), 2), none] = [(1, 2)] ∧
    ([some ((1 : ℝ), 2), none] : List (Option Keypoint)).length = 2 ∧
    (extract_pose [some ((1 : ℝ), 2), none]).length = 1 := by
  refine ⟨?_, rfl, ?_⟩ <;> simp [extract_pose]

/-- C5 amended: `extract_pose` omits the undetected joints entirely: the
produced KeypointSet holds exactly the detected points, in order, so its
length is the number of detected joints, not the fixed K, and a point
belongs to it precisely when the detector reported it. -/
theorem extract_pose_filters_undetected :
    ∀ detected : List (Option Keypoint),
      (extract_pose detected).length = detected.countP (fun o => o.isSome) ∧
      ∀ k : Keypoint, k ∈ extract_pose detected ↔ some k ∈ detected := by
  intro detected
  constructor
  · induction detected with
    | nil => simp [extract_pose]
    | cons o rest ih =>
        cases o <;> simp [extract_pose, List.filterMap_cons, List.countP_cons] <;>
          simpa [extract_pose] using ih
  · intro k
    simp [extract_pose, List.mem_filterMap]

/-- Batch environment for the C2 counterexample: every entry has a
candidate, both images are readable, but the detector reports two
keypoints on the reference image and only one on the candidate image. -/
def envC2 : BatchEnv where
  hasCand := fun _ => true
  extractGt := fun _ => .ok [some (0, 0), some (2, 3)]
  extractCand := fun _ => .ok [some (0, 0)]

/-- C2 counterexample: a shape mismatch inside the scorer is not caught
at the batch boundary: the first pair's failed assert aborts the whole
run (no skipped record, the second reference entry is never processed),
refuting the claim that every per-pair error is downgraded to a skip. -/
theorem batch_abort_on_shape_mismatch_ce :
    runBatch envC2 sigmas ["a.png", "b.png"] = .error () := by
  simp [runBatch, envC2, extract_pose, bboxArea, calculate_oks]

/-- C2 amended: the batch loop catches nothing: the only non-fatal case
is a missing candidate file, which is skipped with a printed message
and no record.  When an entry has a candidate and its processing fails
anywhere — the extractor fails on either image, the reference
KeypointSet is empty (so the bounding box raises), or the scorer fails
(shape assert or broadcasting) — the exception propagates and the whole
run aborts. -/
theorem batch_per_pair_error_aborts :
    ∀ (env : BatchEnv) (sig : List ℝ) (f : String) (rest : List String),
      env.hasCand f = true →
      ((∃ e, env.extractGt f = .error e) ∨
       (∃ e, env.extractCand f = .error e) ∨
       (∃ raw, env.extractGt f = .ok raw ∧ extract_pose raw = []) ∨
       (∃ rawG rawC a, env.extractGt f = .ok rawG ∧ env.extractCand f = .ok rawC ∧
          bboxArea (extract_pose rawG) = .ok a ∧
          calculate_oks (extract_pose rawC) (extract_pose rawG) sig a = none)) →
      runBatch env sig (f :: rest) = .error () := by
  intro env sig f rest hc hdisj
  simp only [runBatch, hc, if_true]
  rcases hdisj with ⟨e, hG⟩ | ⟨e, hC⟩ | ⟨raw, hG, hemp⟩ | ⟨rawG, rawC, a, hG, hC, hB, hS⟩
  · cases e
    simp [hG]
  · cases e
    rcases hGt : env.extractGt f with e' | raw
    · cases e'
      simp [hGt]
    · simp [hGt, hC]
  · rcases hCd : env.extractCand f with e' | rawC
    · cases e'
      simp [hG, hCd]
    · simp [hG, hCd, hemp, bboxArea]
  · simp [hG, hC, hB, hS]

/-- Batch environment for the C2 witness: the reference image itself is
unreadable, so the extractor fails on it. -/
def envC2w : BatchEnv where
  hasCand := fun _ => true
  extractGt := fun _ => .error ()
  extractCand := fun _ => .ok [some (0, 0)]

/-- Witness for the amended C2 at a concrete input. -/
theorem batch_per_pair_error_aborts_witness :
    runBatch envC2w sigmas ["a.png"] = .error () :=
  batch_per_pair_error_aborts envC2w sigmas "a.png" [] rfl (Or.inl ⟨(), rfl⟩)

/-- Batch environment for the C3 counterexample: the reference set is
`{a.png, b.png}` but only `a.png` has a generated candidate; both images
of `a.png` give the same single detected keypoint. -/
def envC3 : BatchEnv where
  hasCand := fun f => f = "a.png"
  extractGt := fun _ => .ok [some (0, 0)]
  extractCand := fun _ => .ok [some (0, 0)]

/-- C3 counterexample: with references `{a.png, b.png}` and candidate
set `{a.png}` only, the run records exactly one score and nothing for
`b.png` — no skipped PairResult with a MissingCandidate marker exists
anywhere in the output, refuting the claimed 2 PairResults. -/
theorem batch_missing_candidate_ce :
    runBatch envC3 sigmas ["a.png", "b.png"] = .ok [1] ∧
    ([(1 : ℝ)].length = 1) := by
  refine ⟨?_, rfl⟩
  have h0 : sqDist 0 0 = 0 := by simp [sqDist]
  have hoks : calculate_oks [(0 : Keypoint)] [(0 : Keypoint)] sigmas 0 = some 1 := by
    simp only [calculate_oks, broadcast2, npMean, sigmas]
    norm_num [Real.exp_zero, h0]
  simp [runBatch, envC3, extract_pose, bboxArea, hoks]

/-- C3 amended: for a reference entry with no matching candidate the
loop prints a message and moves on recording nothing at all — there is
no PairResult for the skipped entry; in the `{a.png, b.png}` versus
`{a.png}` scenario the run therefore yields a single recorded score and
the reported mean is over that one pair alone. -/
theorem batch_missing_candidate_skips_without_record :
    ∀ (env : BatchEnv) (sig : List ℝ) (f : String) (rest : List String),
      env.hasCand f = false →
      runBatch env sig (f :: rest) = runBatch env sig rest := by
  intro env sig f rest hc
  simp [runBatch, hc]

/-- Witness for the amended C3 at a concrete input. -/
theorem batch_missing_candidate_skips_without_record_witness :
    runBatch envC3 sigmas ["b.png"] = runBatch envC3 sigmas [] :=
  batch_missing_candidate_skips_without_record envC3 sigmas "b.png" []
    (by simp [envC3])

/-- Batch environment for the C4 counterexample: every entry has a
candidate, but the detector finds no keypoints at all in the reference
image `a.png`, while `b.png` would evaluate cleanly. -/
def envC4 : BatchEnv where
  hasCand := fun _ => true
  extractGt := fun f => if f = "a.png" then .ok [none] else .ok [some (0, 0)]
  extractCand := fun _ => .ok [some (0, 0)]

/-- C4 counterexample: an empty reference KeypointSet is not recorded as
a skip: the bounding-box computation raises on the empty array and the
whole run aborts, so the following entry `b.png` is never processed. -/
theorem batch_empty_reference_aborts_ce :
    runBatch envC4 sigmas ["a.png", "b.png"] = .error () := by
  simp [runBatch, envC4, extract_pose, bboxArea]

/-- C4 amended: when the extracted reference KeypointSet of an entry
with an existing candidate is empty, the bounding-box computation raises
an unhandled error and the run aborts; no "no keypoints detected" skip
is recorded and the remaining entries are not processed. -/
theorem batch_empty_reference_aborts :
    ∀ (env : BatchEnv) (sig : List ℝ) (f : String) (rest : List String),
      env.hasCand f = true →
      (∃ raw, env.extractGt f = .ok raw ∧ extract_pose raw = []) →
      runBatch env sig (f :: rest) = .error () := by
  intro env sig f rest hc ⟨raw, hG, hemp⟩
  simp only [runBatch, hc, if_true]
  rcases hCd : env.extractCand f with e' | rawC
  · cases e'
    simp [hG, hCd]
  · simp [hG, hCd, hemp, bboxArea]

/-- Witness for the amended C4 at a concrete input. -/
theorem batch_empty_reference_aborts_witness :
    runBatch envC4 sigmas ["a.png"] = .error () :=
  batch_empty_reference_aborts envC4 sigmas "a.png" [] rfl
    ⟨[none], by simp [envC4], by simp [extract_pose]⟩

/-- C7: when a completed run scored zero pairs, the summary mean
`np.mean(oks_scores)` is NaN (modelled `none`), surfaced distinctly,
and in particular is never the fabricated value `0.0`. -/
theorem zero_scored_mean_absent :
    ∀ (env : BatchEnv) (sig : List ℝ) (files : List String) (scores : List ℝ),
      runBatch env sig files = .ok scores → scores.length = 0 →
      npMean scores = none ∧ npMean scores ≠ some 0 := by
  intro env sig files scores hrun hlen
  rw [List.length_eq_zero] at hlen
  subst hlen
  simp [npMean]

/-- Batch environment for the C7 witness: no reference entry has a
candidate, so the run completes with zero scored pairs. -/
def envC7 : BatchEnv where
  hasCand := fun _ => false
  extractGt := fun _ => .ok []
  extractCand := fun _ => .ok []

/-- Witness for C7 at a concrete input. -/
theorem zero_scored_mean_absent_witness :
    npMean ([] : List ℝ) = none ∧ npMean ([] : List ℝ) ≠ some 0 :=
  zero_scored_mean_absent envC7 sigmas ["a.png", "b.png"] []
    (by simp [runBatch, envC7]) rfl

end

end OksEval
